import Mathlib

/-!
# Todo resource handler (`backend/internal/resource/todo/handler.go`)

A shallow embedding of the five gin handlers of `TodoService` and of the
collaborators they call:

* `strconv.Atoi`, `strconv.FormatBool` and the `%d` verb of `fmt.Sprintf`
  (Go standard library, 64-bit `int`);
* the request side of `gin.Context` (`Param`, `ShouldBindJSON`) and its
  response writer (`JSON`, `Header`, `Status`);
* `database/sql` as an interface with explicit state passing (`DB`), plus one
  concrete in-memory instance of the `todos` table (`memDB`) used where a
  property speaks about what storage holds afterwards.
-/

namespace TodoApp

/-! ## Go values -/

/-- The sentinel errors `strconv.ErrSyntax` ("invalid syntax") and
`strconv.ErrRange` ("value out of range"). -/
inductive StrconvErr where
  | invalid
  | range
deriving DecidableEq, Repr

/-- Record `strconv.NumError`: the failing function, the input and the cause. -/
structure NumError where
  Func : String
  Num : String
  Err : StrconvErr
deriving DecidableEq, Repr

/-- A Go `error` value.  `num` is a `*strconv.NumError`; every other error
(JSON binding, storage) is kept by the text its `Error()` method returns. -/
inductive GoError where
  | num (e : NumError)
  | text (msg : String)
deriving DecidableEq, Repr

/-- Modelled from the spec: type `common.Todo`, declared in the `common/pkg`
module and absent from the sources at hand.  The spec's data model gives it an
integer `id`, the texts `title` and `description`, and the boolean `status`;
these are the four fields the handler reads and writes. -/
structure Todo where
  ID : Int
  Title : String
  Description : String
  Status : Bool
deriving DecidableEq, Repr

/-- A Go slice of `Todo`: the nil slice or a (possibly empty) backing list. -/
inductive Slice where
  | nil
  | elems (l : List Todo)
deriving DecidableEq, Repr

/-- Builtin `append(todos, todo)`. -/
def Slice.append : Slice → Todo → Slice
  | .nil, t => .elems [t]
  | .elems l, t => .elems (l ++ [t])

/-! ## `strconv` and `fmt` -/

/-- Width of Go's `int` on the modelled platform (`strconv.IntSize`). -/
def intSize : Nat := 64

def maxUint64 : Nat := 2 ^ 64 - 1

def maxInt64 : Int := 2 ^ 63 - 1

def minInt64 : Int := -(2 ^ 63)

/-- Conversion `int(x)` of an `int64`: two's-complement truncation to
`intSize` bits (the identity on every `int64` when `intSize = 64`). -/
def toInt (x : Int) : Int := (x + 2 ^ (intSize - 1)) % 2 ^ intSize - 2 ^ (intSize - 1)

/-- Whether a byte is an ASCII decimal digit. -/
def isDigit (c : Char) : Bool := decide ('0' ≤ c) && decide (c ≤ '9')

/-- The value `c - '0'` of a digit byte. -/
def digitVal (c : Char) : Nat := c.toNat - '0'.toNat

/-- The digit loop of `strconv.ParseUint(s, 10, 64)`.  A byte that is not a
decimal digit is a syntax error (letters decode to a digit `≥ base`, every
other byte hits the `default` case; the bytes of a multi-byte character are
all `≥ 0x80`).  Overflow of `n*10` (`n >= cutoff`) or of `n*10 + d` is a range
error, reported as soon as it is met. -/
def parseUintLoop (n : Nat) : List Char → Except StrconvErr Nat
  | [] => .ok n
  | c :: cs =>
    if isDigit c then
      let d := digitVal c
      if n ≥ maxUint64 / 10 + 1 then .error .range
      else
        let n1 := n * 10 + d
        if n1 > maxUint64 then .error .range
        else parseUintLoop n1 cs
    else .error .invalid

/-- Function `strconv.ParseUint(s, 10, 64)` on the characters of `s`. -/
def ParseUint (s : List Char) : Except StrconvErr Nat :=
  match s with
  | [] => .error .invalid
  | _ => parseUintLoop 0 s

/-- Function `strconv.ParseInt(s, 10, 0)`: optional sign, then `ParseUint`; a
range error of `ParseUint` or a magnitude beyond the `int` cutoff is a range
error. -/
def ParseInt (s : List Char) : Except StrconvErr Int :=
  match s with
  | [] => .error .invalid
  | c :: rest =>
    let neg := c == '-'
    let body := if c == '+' || c == '-' then rest else s
    match ParseUint body with
    | .error .invalid => .error .invalid
    | .error .range => .error .range
    | .ok un =>
      if !neg && un ≥ 2 ^ (intSize - 1) then .error .range
      else if neg && un > 2 ^ (intSize - 1) then .error .range
      else .ok (if neg then -(un : Int) else (un : Int))

/-- The digit loop of the fast path of `strconv.Atoi`: no overflow checks,
since fewer than 19 digits always fit an `int`. -/
def atoiFastLoop (n : Nat) : List Char → Except StrconvErr Nat
  | [] => .ok n
  | c :: cs => if isDigit c then atoiFastLoop (n * 10 + digitVal c) cs else .error .invalid

/-- The fast path of `strconv.Atoi` for small integers: an optional sign that
must be followed by at least one byte, then digits only. -/
def atoiFast (s : List Char) : Except StrconvErr Int :=
  match s with
  | [] => .error .invalid
  | c :: rest =>
    let signed := c == '-' || c == '+'
    let body := if signed then rest else s
    if signed && body.length < 1 then .error .invalid
    else
      match atoiFastLoop 0 body with
      | .error k => .error k
      | .ok n => .ok (if c == '-' then -(n : Int) else (n : Int))

/-- Function `strconv.Atoi`.  Inputs of 1 to 18 bytes take the fast path;
everything else goes through `ParseInt(s, 10, 0)`, whose `int64` is converted
to `int`.  An error is a `*NumError` with `Func = "Atoi"` and the original
input. -/
def Atoi (s : String) : Except GoError Int :=
  let r := if 0 < s.utf8ByteSize ∧ s.utf8ByteSize < 19 then atoiFast s.data
    else (ParseInt s.data).map toInt
  match r with
  | .error k => .error (.num { Func := "Atoi", Num := s, Err := k })
  | .ok i => .ok i

/-- Function `strconv.FormatBool`. -/
def FormatBool (b : Bool) : String := if b then "true" else "false"

/-- The byte `'0' + d`. -/
def digitChar (d : Nat) : Char := Char.ofNat ('0'.toNat + d)

/-- The digit loop of `fmt`'s integer formatting in base 10: peel the low
digit while `u >= 10`, then write the leading digit.  The first argument
bounds the number of iterations. -/
def fmtDigits : Nat → Nat → List Char → List Char
  | 0, u, buf => digitChar (u % 10) :: buf
  | fuel + 1, u, buf =>
    if u ≥ 10 then fmtDigits fuel (u / 10) (digitChar (u % 10) :: buf)
    else digitChar u :: buf

/-- The text `fmt.Sprintf("%d", n)` produces: the decimal digits of `|n|`,
preceded by `-` when `n` is negative. -/
def formatInt (n : Int) : String :=
  let ds := fmtDigits n.natAbs n.natAbs []
  String.mk (if n < 0 then '-' :: ds else ds)

/-! ## `database/sql` -/

/-- A value bound to a `?` placeholder. -/
inductive Arg where
  | int (n : Int)
  | str (s : String)
  | bool (b : Bool)
deriving DecidableEq, Repr

/-- One row of `todos` as the driver hands it out, columns in table order
(`id`, `title`, `description`, `status`). -/
structure Row where
  id : Int
  title : String
  description : String
  status : Bool
deriving DecidableEq, Repr

/-- Type `sql.Result`, reduced to the method the handler calls. -/
structure Result where
  LastInsertId : Except GoError Int

/-- The part of `*sql.DB` the handlers use, over a storage state `σ`.

* `Query` returns an error or a cursor, given as the outcomes of `rows.Scan`
  for each row for which `rows.Next()` is true, in cursor order;
* `QueryRow` never fails itself, its error surfaces in `row.Scan`, so it is
  given by the outcome of that scan;
* `Exec` returns the new storage state and an error or a `Result`. -/
structure DB (σ : Type) where
  Query : σ → String → List Arg → Except GoError (List (Except GoError Row))
  QueryRow : σ → String → List Arg → Except GoError Row
  Exec : σ → String → List Arg → σ × Except GoError Result

/-! ## `gin.Context` -/

/-- What a handler writes as the JSON response body. -/
inductive Body where
  /-- `gin.H{"message": err.Error()}`: an object with the single field `message`. -/
  | message (err : GoError)
  /-- A `Todo` marshalled as an object. -/
  | record (t : Todo)
  /-- A non-nil slice marshalled as an array. -/
  | array (ts : List Todo)
  /-- A nil slice marshalled as `null`. -/
  | null
deriving DecidableEq, Repr

/-- What `json.Marshal` makes of a slice. -/
def Slice.marshal : Slice → Body
  | .nil => .null
  | .elems l => .array l

/-- The response a handler has produced: status code, the headers it set
itself, and the body if one was written. -/
structure Response where
  status : Nat
  header : List (String × String)
  body : Option Body
deriving DecidableEq, Repr

/-- The writer a handler starts from. -/
def Response.new : Response := { status := 200, header := [], body := none }

/-- Method `c.JSON(code, obj)`. -/
def Response.JSON (w : Response) (code : Nat) (obj : Body) : Response :=
  { w with status := code, body := some obj }

/-- Method `c.Header(key, value)` for a non-empty value. -/
def Response.Header (w : Response) (key value : String) : Response :=
  { w with header := w.header.filter (fun kv => kv.1 != key) ++ [(key, value)] }

/-- Method `c.Status(code)`. -/
def Response.Status (w : Response) (code : Nat) : Response :=
  { w with status := code }

/-- The request side of `gin.Context`: the path parameters and the outcome of
`c.ShouldBindJSON(&todo)` on a zero-valued `Todo` (an error, or the bound
record, whose `ID` is whatever the body carried). -/
structure Context where
  Param : String → String
  ShouldBindJSON : Except GoError Todo

/-! ## The handlers -/

/-- Type `TodoService`. -/
structure TodoService (σ : Type) where
  db : DB σ

/-- Function `NewTodoService`. -/
def NewTodoService {σ : Type} (db : DB σ) : TodoService σ := { db := db }

/-- The `rows.Scan` target list `&todo.ID, &todo.Title, &todo.Description,
&todo.Status`: one column per field, in order. -/
def scanTodo (r : Row) : Todo :=
  { ID := r.id, Title := r.title, Description := r.description, Status := r.status }

/-- The `for rows.Next()` loop of `GetAll`. -/
def GetAll.loop (w : Response) : List (Except GoError Row) → Slice → Response
  | [], todos => w.JSON 200 todos.marshal
  | .error err :: _, _ => w.JSON 500 (.message err)
  | .ok r :: rest, todos => GetAll.loop w rest (todos.append (scanTodo r))

/-- Handler `GetAll`. -/
def TodoService.GetAll {σ : Type} (s : TodoService σ) (_c : Context) (st : σ) : Response :=
  let w := Response.new
  match s.db.Query st "SELECT * FROM todos" [] with
  | .error err => w.JSON 500 (.message err)
  | .ok rows => GetAll.loop w rows (.elems [])

/-- Handler `GetByID`. -/
def TodoService.GetByID {σ : Type} (s : TodoService σ) (c : Context) (st : σ) : Response :=
  let w := Response.new
  match Atoi (c.Param "id") with
  | .error err => w.JSON 400 (.message err)
  | .ok id =>
    match s.db.QueryRow st "SELECT * FROM todos WHERE id = ?" [.int id] with
    | .error err => w.JSON 500 (.message err)
    | .ok r => w.JSON 200 (.record (scanTodo r))

/-- Handler `Create`. -/
def TodoService.Create {σ : Type} (s : TodoService σ) (c : Context) (st : σ) : Response × σ :=
  let w := Response.new
  match c.ShouldBindJSON with
  | .error err => (w.JSON 400 (.message err), st)
  | .ok todo =>
    match s.db.Exec st "INSERT INTO todos (title, description, status) VALUES (?, ?, ?)"
        [.str todo.Title, .str todo.Description, .bool todo.Status] with
    | (st', .error err) => (w.JSON 500 (.message err), st')
    | (st', .ok result) =>
      match result.LastInsertId with
      | .error err => (w.JSON 500 (.message err), st')
      | .ok lastID =>
        let todo := { todo with ID := toInt lastID }
        ((w.Header "Location" ("/todos/" ++ formatInt todo.ID)).Status 201, st')

/-- The `cols` slice `Update` builds. -/
def Update.cols (todo : Todo) : List String :=
  let cols : List String := []
  let cols := if todo.Title ≠ "" then cols ++ ["title = '" ++ todo.Title ++ "'"] else cols
  let cols :=
    if todo.Description ≠ "" then cols ++ ["description = '" ++ todo.Description ++ "'"] else cols
  cols ++ ["status = " ++ FormatBool todo.Status]

/-- The statement text `Update` passes to `Exec`. -/
def Update.statement (todo : Todo) : String :=
  "UPDATE todos SET " ++ String.intercalate "," (Update.cols todo) ++ " WHERE id = ?"

/-- Handler `Update`. -/
def TodoService.Update {σ : Type} (s : TodoService σ) (c : Context) (st : σ) : Response × σ :=
  let w := Response.new
  match c.ShouldBindJSON with
  | .error err => (w.JSON 400 (.message err), st)
  | .ok todo =>
    match Atoi (c.Param "id") with
    | .error err => (w.JSON 400 (.message err), st)
    | .ok id =>
      let todo := { todo with ID := id }
      match s.db.Exec st (Update.statement todo) [.int todo.ID] with
      | (st', .error err) => (w.JSON 500 (.message err), st')
      | (st', .ok _) =>
        ((w.Header "Location" ("/todos/" ++ formatInt todo.ID)).Status 204, st')

/-- Handler `Delete`. -/
def TodoService.Delete {σ : Type} (s : TodoService σ) (c : Context) (st : σ) : Response × σ :=
  let w := Response.new
  match Atoi (c.Param "id") with
  | .error err => (w.JSON 400 (.message err), st)
  | .ok id =>
    match s.db.Exec st "DELETE FROM todos WHERE id = ?" [.int id] with
    | (st', .error err) => (w.JSON 500 (.message err), st')
    | (st', .ok _) => (w.Status 204, st')

/-! ## An in-memory `todos` table

A reference storage for the handlers: the table
`todos(id PRIMARY KEY auto-assigned, title, description, status)` as a list of
rows in insertion order, and an interpreter for the statements the handlers
issue.  Statement text is tokenised and parsed the way an SQL engine reads it
(blank-separated words, punctuation, single-quoted string literals in which a
doubled quote stands for one quote); `?` placeholders take their values from
the bound arguments. -/

/-- A lexical token of a statement. -/
inductive Token where
  | word (w : String)
  | lit (s : String)
  | sym (c : Char)
deriving DecidableEq, Repr

/-- The single quote that delimits a string literal. -/
def quoteChar : Char := Char.ofNat 39

/-- Tokeniser state: between tokens, inside a word, inside a string literal,
or right after a quote met inside a string literal (which either closes the
literal or, when followed by a second quote, stands for one quote). -/
inductive LexMode where
  | idle
  | inWord (acc : List Char)
  | inStr (acc : List Char)
  | afterQuote (acc : List Char)
deriving DecidableEq, Repr

def isWordChar (c : Char) : Bool := c.isAlphanum || c == '_'

/-- A character met between tokens. -/
def lexStart (c : Char) : LexMode × List Token :=
  if c.isWhitespace then (.idle, [])
  else if c == quoteChar then (.inStr [], [])
  else if isWordChar c then (.inWord [c], [])
  else (.idle, [.sym c])

/-- One step of the tokeniser: the next state and the tokens completed. -/
def lexStep : LexMode → Char → LexMode × List Token
  | .idle, c => lexStart c
  | .inWord acc, c =>
    if isWordChar c then (.inWord (acc ++ [c]), [])
    else ((lexStart c).1, .word (String.mk acc) :: (lexStart c).2)
  | .inStr acc, c =>
    if c == quoteChar then (.afterQuote acc, [])
    else (.inStr (acc ++ [c]), [])
  | .afterQuote acc, c =>
    if c == quoteChar then (.inStr (acc ++ [quoteChar]), [])
    else ((lexStart c).1, .lit (String.mk acc) :: (lexStart c).2)

/-- Tokenise the rest of a statement; `none` for an unterminated literal. -/
def lexFrom : LexMode → List Char → Option (List Token)
  | .idle, [] => some []
  | .inWord acc, [] => some [.word (String.mk acc)]
  | .inStr _, [] => none
  | .afterQuote acc, [] => some [.lit (String.mk acc)]
  | m, c :: cs =>
    match lexFrom (lexStep m c).1 cs with
    | none => none
    | some ts => some ((lexStep m c).2 ++ ts)

def lexSQL (query : String) : Option (List Token) := lexFrom .idle query.data

/-- A literal on the right of an assignment. -/
inductive Value where
  | text (s : String)
  | boolean (b : Bool)
deriving DecidableEq, Repr

/-- One `column = literal` item of a `SET` clause. -/
structure Assign where
  col : String
  val : Value
deriving DecidableEq, Repr

def tokenValue : Token → Option Value
  | .lit s => some (.text s)
  | .word w => if w = "true" then some (.boolean true)
               else if w = "false" then some (.boolean false) else none
  | .sym _ => none

/-- A comma-separated list of assignments, and the tokens after it. -/
def parseAssigns : List Token → Option (List Assign × List Token)
  | .word col :: .sym c :: v :: rest =>
    if c = '=' then
      match tokenValue v with
      | none => none
      | some val =>
        match rest with
        | .sym c' :: rest' =>
          if c' = ',' then
            match parseAssigns rest' with
            | none => none
            | some (as, r) => some ({ col := col, val := val } :: as, r)
          else some ([{ col := col, val := val }], rest)
        | _ => some ([{ col := col, val := val }], rest)
    else none
  | _ => none

/-- The statements the storage understands. -/
inductive Stmt where
  | selectAll
  | selectByID
  | insert
  | deleteByID
  | update (sets : List Assign)
deriving DecidableEq, Repr

def whereIdTokens : List Token := [.word "WHERE", .word "id", .sym '=', .sym '?']

def parseStmt (ts : List Token) : Option Stmt :=
  if ts = [.word "SELECT", .sym '*', .word "FROM", .word "todos"] then some .selectAll
  else if ts = [.word "SELECT", .sym '*', .word "FROM", .word "todos"] ++ whereIdTokens then
    some .selectByID
  else if ts = [.word "INSERT", .word "INTO", .word "todos", .sym '(', .word "title", .sym ',',
      .word "description", .sym ',', .word "status", .sym ')', .word "VALUES", .sym '(',
      .sym '?', .sym ',', .sym '?', .sym ',', .sym '?', .sym ')'] then some .insert
  else if ts = [.word "DELETE", .word "FROM", .word "todos"] ++ whereIdTokens then
    some .deleteByID
  else
    match ts with
    | .word u :: .word t :: .word s :: rest =>
      if u = "UPDATE" ∧ t = "todos" ∧ s = "SET" then
        match parseAssigns rest with
        | none => none
        | some (sets, tail) => if tail = whereIdTokens then some (.update sets) else none
      else none
    | _ => none

def parseSQL (query : String) : Option Stmt :=
  match lexSQL query with
  | none => none
  | some ts => parseStmt ts

abbrev Table := List Row

/-- Error `sql.ErrNoRows`. -/
def ErrNoRows : GoError := .text "sql: no rows in result set"

def sqlError : GoError := .text "SQL logic error"

/-- The largest id in the table, if it has a row. -/
def maxID : Table → Option Int
  | [] => none
  | r :: rs =>
    match maxID rs with
    | none => some r.id
    | some m => some (max r.id m)

/-- The id given to the next inserted row: one more than the largest id in
use, 1 for an empty table. -/
def nextID (t : Table) : Int :=
  match maxID t with
  | none => 1
  | some m => m + 1

/-- Apply one assignment to a row; `none` for an unknown column or a literal
of the wrong type. -/
def applyAssign (r : Row) (a : Assign) : Option Row :=
  if a.col = "title" then
    match a.val with
    | .text s => some { r with title := s }
    | .boolean _ => none
  else if a.col = "description" then
    match a.val with
    | .text s => some { r with description := s }
    | .boolean _ => none
  else if a.col = "status" then
    match a.val with
    | .boolean b => some { r with status := b }
    | .text _ => none
  else none

/-- Apply the assignments of a `SET` clause from left to right. -/
def applyAssigns (r : Row) : List Assign → Option Row
  | [] => some r
  | a :: as =>
    match applyAssign r a with
    | none => none
    | some r' => applyAssigns r' as

/-- Whether every assignment names a column of `todos` and carries a literal
of that column's type (this does not depend on the row). -/
def validAssigns (sets : List Assign) : Bool :=
  (applyAssigns { id := 0, title := "", description := "", status := false } sets).isSome

/-- Rewrite every row whose id is `id`; `none` when an assignment is invalid. -/
def updateRows (sets : List Assign) (id : Int) (t : Table) : Option Table :=
  if validAssigns sets then
    some (t.map (fun r => if r.id = id then (applyAssigns r sets).getD r else r))
  else none

/-- Method `Exec` of the in-memory storage. -/
def memExec (t : Table) (query : String) (args : List Arg) : Table × Except GoError Result :=
  match parseSQL query, args with
  | some .insert, [.str title, .str description, .bool status] =>
    let id := nextID t
    if minInt64 ≤ id ∧ id ≤ maxInt64 then
      (t ++ [{ id := id, title := title, description := description, status := status }],
        .ok { LastInsertId := .ok id })
    else (t, .error (.text "database or disk is full"))
  | some .deleteByID, [.int id] =>
    (t.filter (fun r => r.id != id), .ok { LastInsertId := .ok 0 })
  | some (.update sets), [.int id] =>
    match updateRows sets id t with
    | none => (t, .error sqlError)
    | some t' => (t', .ok { LastInsertId := .ok 0 })
  | _, _ => (t, .error sqlError)

/-- Method `Query` of the in-memory storage: every row, in table order; a
stored row always scans. -/
def memQuery (t : Table) (query : String) (args : List Arg) :
    Except GoError (List (Except GoError Row)) :=
  match parseSQL query, args with
  | some .selectAll, [] => .ok (t.map .ok)
  | _, _ => .error sqlError

/-- Method `QueryRow` followed by `Scan` on the in-memory storage: the first
row with the given id, `sql.ErrNoRows` when there is none. -/
def memQueryRow (t : Table) (query : String) (args : List Arg) : Except GoError Row :=
  match parseSQL query, args with
  | some .selectByID, [.int id] =>
    match t.find? (fun r => r.id == id) with
    | none => .error ErrNoRows
    | some r => .ok r
  | _, _ => .error sqlError

/-- The in-memory storage as a `DB`. -/
def memDB : DB Table := { Query := memQuery, QueryRow := memQueryRow, Exec := memExec }

/-- A request context with the given `id` path parameter and binding outcome. -/
def mkContext (id : String) (bound : Except GoError Todo) : Context :=
  { Param := fun key => if key = "id" then id else "", ShouldBindJSON := bound }

/-- A storage that records every statement passed to `Exec`, with its bound
arguments, and reports success; reads return nothing. -/
def logDB : DB (List (String × List Arg)) :=
  { Query := fun _ _ _ => .ok []
    QueryRow := fun _ _ _ => .error ErrNoRows
    Exec := fun log query args => (log ++ [(query, args)], .ok { LastInsertId := .ok 0 }) }

/-- A storage without state whose three calls return fixed outcomes. -/
def fixedDB (q : Except GoError (List (Except GoError Row))) (qr : Except GoError Row)
    (ex : Except GoError Result) : DB Unit :=
  { Query := fun _ _ _ => q, QueryRow := fun _ _ _ => qr, Exec := fun _ _ _ => ((), ex) }

/-- The response `c.JSON(code, gin.H{"message": err.Error()})` on a fresh writer. -/
def errorResponse (code : Nat) (err : GoError) : Response :=
  { status := code, header := [], body := some (.message err) }

/-- The number a digit string denotes when read after the prefix value `n`. -/
def decVal (n : Nat) : List Char → Nat
  | [] => n
  | c :: cs => decVal (n * 10 + digitVal c) cs

/-- Run the tokeniser over the first part of a statement: the state reached
and the tokens completed so far. -/
def lexRun : LexMode → List Char → LexMode × List Token
  | m, [] => (m, [])
  | m, c :: cs => ((lexRun (lexStep m c).1 cs).1, (lexStep m c).2 ++ (lexRun (lexStep m c).1 cs).2)

/-! ## Properties -/

theorem toInt_of_int64 (x : Int) (h : minInt64 ≤ x ∧ x ≤ maxInt64) : toInt x = x := by
  unfold toInt intSize
  unfold minInt64 maxInt64 at h
  norm_num at h ⊢
  omega

theorem GetAll_loop_ok (w : Response) (rows : List Row) (acc : List Todo) :
    GetAll.loop w (rows.map .ok) (.elems acc) =
      w.JSON 200 (.array (acc ++ rows.map scanTodo)) := by
  induction rows generalizing acc with
  | nil => simp [GetAll.loop, Slice.marshal]
  | cons r rs ih => simp [GetAll.loop, Slice.append, ih]

theorem GetAll_loop_error (w : Response) (pre : List Row) (err : GoError)
    (post : List (Except GoError Row)) (acc : Slice) :
    GetAll.loop w (pre.map .ok ++ .error err :: post) acc = w.JSON 500 (.message err) := by
  induction pre generalizing acc with
  | nil => simp [GetAll.loop]
  | cons r rs ih => simp [GetAll.loop, ih]

/-- C1: when `strconv.Atoi` rejects the `id` path parameter, the handlers
`GetByID`, `Update` and `Delete` answer with status 400 (hence not 500), for
every binding outcome of the body and every storage and storage state. -/
theorem bad_id_yields_400 {σ : Type} (s : TodoService σ) (c : Context) (st : σ) (err : GoError)
    (h : Atoi (c.Param "id") = .error err) :
    (s.GetByID c st).status = 400 ∧ (s.Update c st).1.status = 400 ∧
      (s.Delete c st).1.status = 400 := by
  refine ⟨?_, ?_, ?_⟩
  · simp [TodoService.GetByID, h, Response.JSON]
  · cases hb : c.ShouldBindJSON <;> simp [TodoService.Update, h, hb, Response.JSON]
  · simp [TodoService.Delete, h, Response.JSON]

theorem bad_id_yields_400_witness :
    Atoi ((mkContext "abc" (.ok ⟨7, "t", "d", true⟩)).Param "id")
        = .error (.num ⟨"Atoi", "abc", .invalid⟩) ∧
      (((NewTodoService memDB).GetByID (mkContext "abc" (.ok ⟨7, "t", "d", true⟩))
          [⟨1, "a", "b", false⟩]).status = 400 ∧
        ((NewTodoService memDB).Update (mkContext "abc" (.ok ⟨7, "t", "d", true⟩))
          [⟨1, "a", "b", false⟩]).1.status = 400 ∧
        ((NewTodoService memDB).Delete (mkContext "abc" (.ok ⟨7, "t", "d", true⟩))
          [⟨1, "a", "b", false⟩]).1.status = 400) :=
  ⟨by rfl, bad_id_yields_400 _ _ _ _ (by rfl)⟩

/-- C6: when the JSON body does not bind to a `Todo`, `Create` and `Update`
answer 400 with the object `{"message": <binding error>}` and leave storage
untouched, whatever the path parameter and the storage state. -/
theorem bind_failure_yields_400 {σ : Type} (s : TodoService σ) (c : Context) (st : σ)
    (err : GoError) (h : c.ShouldBindJSON = .error err) :
    s.Create c st = (errorResponse 400 err, st) ∧ s.Update c st = (errorResponse 400 err, st) := by
  constructor
  · simp [TodoService.Create, h, Response.JSON, Response.new, errorResponse]
  · simp [TodoService.Update, h, Response.JSON, Response.new, errorResponse]

theorem bind_failure_yields_400_witness :
    (mkContext "abc" (.error (.text "unexpected EOF"))).ShouldBindJSON
        = .error (.text "unexpected EOF") ∧
      ((NewTodoService memDB).Create (mkContext "abc" (.error (.text "unexpected EOF")))
          [⟨1, "a", "b", false⟩]
        = (errorResponse 400 (.text "unexpected EOF"), [⟨1, "a", "b", false⟩]) ∧
       (NewTodoService memDB).Update (mkContext "abc" (.error (.text "unexpected EOF")))
          [⟨1, "a", "b", false⟩]
        = (errorResponse 400 (.text "unexpected EOF"), [⟨1, "a", "b", false⟩])) :=
  ⟨rfl, bind_failure_yields_400 _ _ _ _ rfl⟩

/-- C5: in every operation a storage call that returns an error makes the
response `500 {"message": <that error>}`: the query of `GetAll`, a row scan of
`GetAll` (after any number of rows that scanned), the single-row scan of
`GetByID`, the exec and the last-insert-id of `Create`, the exec of `Update`
and of `Delete`; on the in-memory table, `GetByID` for an id that parses and
matches no row gets `sql.ErrNoRows` from the scan and answers 500 with it. -/
theorem storage_error_yields_500 {σ : Type} (s : TodoService σ) (c : Context) (st : σ)
    (err : GoError) :
    (s.db.Query st "SELECT * FROM todos" [] = .error err →
        s.GetAll c st = errorResponse 500 err) ∧
    (∀ (pre : List Row) (post : List (Except GoError Row)),
        s.db.Query st "SELECT * FROM todos" [] = .ok (pre.map .ok ++ .error err :: post) →
        s.GetAll c st = errorResponse 500 err) ∧
    (∀ id : Int, Atoi (c.Param "id") = .ok id →
        s.db.QueryRow st "SELECT * FROM todos WHERE id = ?" [.int id] = .error err →
        s.GetByID c st = errorResponse 500 err) ∧
    (∀ (todo : Todo) (st' : σ), c.ShouldBindJSON = .ok todo →
        s.db.Exec st "INSERT INTO todos (title, description, status) VALUES (?, ?, ?)"
            [.str todo.Title, .str todo.Description, .bool todo.Status] = (st', .error err) →
        s.Create c st = (errorResponse 500 err, st')) ∧
    (∀ (todo : Todo) (st' : σ) (res : Result), c.ShouldBindJSON = .ok todo →
        s.db.Exec st "INSERT INTO todos (title, description, status) VALUES (?, ?, ?)"
            [.str todo.Title, .str todo.Description, .bool todo.Status] = (st', .ok res) →
        res.LastInsertId = .error err →
        s.Create c st = (errorResponse 500 err, st')) ∧
    (∀ (todo : Todo) (id : Int) (st' : σ), c.ShouldBindJSON = .ok todo →
        Atoi (c.Param "id") = .ok id →
        s.db.Exec st (Update.statement { todo with ID := id }) [.int id] = (st', .error err) →
        s.Update c st = (errorResponse 500 err, st')) ∧
    (∀ (id : Int) (st' : σ), Atoi (c.Param "id") = .ok id →
        s.db.Exec st "DELETE FROM todos WHERE id = ?" [.int id] = (st', .error err) →
        s.Delete c st = (errorResponse 500 err, st')) ∧
    (∀ (t : Table) (id : Int), Atoi (c.Param "id") = .ok id → (∀ r ∈ t, r.id ≠ id) →
        (NewTodoService memDB).GetByID c t = errorResponse 500 ErrNoRows) := by
  refine ⟨?_, ?_, ?_, ?_, ?_, ?_, ?_, ?_⟩
  · intro h
    simp [TodoService.GetAll, h, Response.JSON, Response.new, errorResponse]
  · intro pre post h
    simp [TodoService.GetAll, h, GetAll_loop_error, Response.JSON, Response.new, errorResponse]
  · intro id hid h
    simp [TodoService.GetByID, hid, h, Response.JSON, Response.new, errorResponse]
  · intro todo st' hb h
    simp [TodoService.Create, hb, h, Response.JSON, Response.new, errorResponse]
  · intro todo st' res hb h hl
    simp [TodoService.Create, hb, h, hl, Response.JSON, Response.new, errorResponse]
  · intro todo id st' hb hid h
    simp [TodoService.Update, hb, hid, h, Response.JSON, Response.new, errorResponse]
  · intro id st' hid h
    simp [TodoService.Delete, hid, h, Response.JSON, Response.new, errorResponse]
  · intro t id hid hno
    have hp : parseSQL "SELECT * FROM todos WHERE id = ?" = some .selectByID := by rfl
    have hf : t.find? (fun r => r.id == id) = none := by
      simpa [List.find?_eq_none] using hno
    simp [TodoService.GetByID, NewTodoService, memDB, memQueryRow, hid, hp, hf, Response.JSON,
      Response.new, errorResponse]

theorem storage_error_yields_500_witness :
    ((NewTodoService (fixedDB (.error (.text "bad connection")) (.error ErrNoRows)
          (.error (.text "bad connection")))).GetAll (mkContext "1" (.ok ⟨0, "t", "d", true⟩)) ()
        = errorResponse 500 (.text "bad connection")) ∧
    ((NewTodoService (fixedDB (.ok ([⟨1, "a", "b", false⟩].map .ok ++
          .error (.text "converting NULL to string is unsupported") :: [.ok ⟨3, "c", "d", true⟩]))
          (.error ErrNoRows) (.error (.text "bad connection")))).GetAll
          (mkContext "1" (.ok ⟨0, "t", "d", true⟩)) ()
        = errorResponse 500 (.text "converting NULL to string is unsupported")) ∧
    ((NewTodoService (fixedDB (.ok []) (.error (.text "bad connection"))
          (.error (.text "bad connection")))).GetByID (mkContext "1" (.ok ⟨0, "t", "d", true⟩)) ()
        = errorResponse 500 (.text "bad connection")) ∧
    ((NewTodoService memDB).GetByID (mkContext "999" (.ok ⟨0, "t", "d", true⟩))
          [⟨1, "a", "b", false⟩]
        = errorResponse 500 ErrNoRows) ∧
    ((NewTodoService (fixedDB (.ok []) (.error ErrNoRows)
          (.error (.text "bad connection")))).Create (mkContext "1" (.ok ⟨0, "t", "d", true⟩)) ()
        = (errorResponse 500 (.text "bad connection"), ())) ∧
    ((NewTodoService (fixedDB (.ok []) (.error ErrNoRows)
          (.ok ⟨.error (.text "LastInsertId is not supported by this driver")⟩))).Create
          (mkContext "1" (.ok ⟨0, "t", "d", true⟩)) ()
        = (errorResponse 500 (.text "LastInsertId is not supported by this driver"), ())) ∧
    ((NewTodoService (fixedDB (.ok []) (.error ErrNoRows)
          (.error (.text "bad connection")))).Update (mkContext "1" (.ok ⟨0, "t", "d", true⟩)) ()
        = (errorResponse 500 (.text "bad connection"), ())) ∧
    ((NewTodoService (fixedDB (.ok []) (.error ErrNoRows)
          (.error (.text "bad connection")))).Delete (mkContext "1" (.ok ⟨0, "t", "d", true⟩)) ()
        = (errorResponse 500 (.text "bad connection"), ())) :=
  ⟨(storage_error_yields_500 _ (mkContext "1" (.ok ⟨0, "t", "d", true⟩)) () _).1 rfl,
   (storage_error_yields_500 _ (mkContext "1" (.ok ⟨0, "t", "d", true⟩)) () _).2.1
      [⟨1, "a", "b", false⟩] [.ok ⟨3, "c", "d", true⟩] rfl,
   (storage_error_yields_500 _ (mkContext "1" (.ok ⟨0, "t", "d", true⟩)) () _).2.2.1
      1 (by rfl) rfl,
   (storage_error_yields_500 (NewTodoService memDB) (mkContext "999" (.ok ⟨0, "t", "d", true⟩))
      [] ErrNoRows).2.2.2.2.2.2.2 [⟨1, "a", "b", false⟩] 999 (by rfl) (by decide),
   (storage_error_yields_500 _ (mkContext "1" (.ok ⟨0, "t", "d", true⟩)) () _).2.2.2.1
      ⟨0, "t", "d", true⟩ () rfl rfl,
   (storage_error_yields_500 _ (mkContext "1" (.ok ⟨0, "t", "d", true⟩)) () _).2.2.2.2.1
      ⟨0, "t", "d", true⟩ () ⟨.error (.text "LastInsertId is not supported by this driver")⟩
      rfl rfl rfl,
   (storage_error_yields_500 _ (mkContext "1" (.ok ⟨0, "t", "d", true⟩)) () _).2.2.2.2.2.1
      ⟨0, "t", "d", true⟩ 1 () rfl (by rfl) rfl,
   (storage_error_yields_500 _ (mkContext "1" (.ok ⟨0, "t", "d", true⟩)) () _).2.2.2.2.2.2.1
      1 () (by rfl) rfl⟩

/-- C8: when the body binds, the insert succeeds and storage reports the
assigned id `n` (an `int64`), `Create` answers 201 with no body and the single
header `Location: /todos/<n in decimal>`. -/
theorem create_responds_201_with_location {σ : Type} (s : TodoService σ) (c : Context)
    (st st' : σ) (todo : Todo) (res : Result) (n : Int)
    (hb : c.ShouldBindJSON = .ok todo)
    (he : s.db.Exec st "INSERT INTO todos (title, description, status) VALUES (?, ?, ?)"
        [.str todo.Title, .str todo.Description, .bool todo.Status] = (st', .ok res))
    (hid : res.LastInsertId = .ok n) (hn : minInt64 ≤ n ∧ n ≤ maxInt64) :
    s.Create c st =
      ({ status := 201, header := [("Location", "/todos/" ++ formatInt n)], body := none },
        st') := by
  simp [TodoService.Create, hb, he, hid, toInt_of_int64 n hn, Response.Header, Response.Status,
    Response.new]

theorem create_responds_201_with_location_witness :
    (NewTodoService memDB).Create (mkContext "" (.ok ⟨0, "Buy milk", "2%", false⟩)) [] =
      ({ status := 201, header := [("Location", "/todos/" ++ formatInt 1)], body := none },
        [⟨1, "Buy milk", "2%", false⟩]) ∧ "/todos/" ++ formatInt 1 = "/todos/1" :=
  ⟨create_responds_201_with_location (NewTodoService memDB)
      (mkContext "" (.ok ⟨0, "Buy milk", "2%", false⟩)) [] [⟨1, "Buy milk", "2%", false⟩]
      ⟨0, "Buy milk", "2%", false⟩ ⟨.ok 1⟩ 1 rfl (by rfl) rfl (by decide), by rfl⟩

/-- C9: when the full-table read succeeds (the query returns a cursor and
every row scans), `GetAll` answers 200 with a JSON array holding one `Todo` per
row, field by column, in cursor order; for an empty cursor the body is the
empty array and never `null`; on the in-memory table the array is the table. -/
theorem list_returns_all_rows {σ : Type} (s : TodoService σ) (c : Context) (st : σ)
    (rows : List Row)
    (h : s.db.Query st "SELECT * FROM todos" [] = .ok (rows.map .ok)) :
    s.GetAll c st = { status := 200, header := [], body := some (.array (rows.map scanTodo)) } ∧
      (rows = [] → (s.GetAll c st).body = some (.array [])) ∧
      (s.GetAll c st).body ≠ some .null ∧
      (∀ t : Table, (NewTodoService memDB).GetAll c t =
        { status := 200, header := [], body := some (.array (t.map scanTodo)) }) := by
  have key : ∀ {τ : Type} (s' : TodoService τ) (st' : τ) (rs : List Row),
      s'.db.Query st' "SELECT * FROM todos" [] = .ok (rs.map .ok) →
      s'.GetAll c st' =
        { status := 200, header := [], body := some (.array (rs.map scanTodo)) } := by
    intro τ s' st' rs h'
    simp [TodoService.GetAll, h', GetAll_loop_ok, Response.JSON, Response.new]
  refine ⟨key s st rows h, ?_, ?_, ?_⟩
  · intro hr
    subst hr
    rw [key s st [] h]
    rfl
  · rw [key s st rows h]
    simp
  · intro t
    apply key
    have hp : parseSQL "SELECT * FROM todos" = some .selectAll := by rfl
    simp [NewTodoService, memDB, memQuery, hp]

theorem list_returns_all_rows_witness :
    (NewTodoService memDB).GetAll (mkContext "" (.error (.text "EOF")))
        [⟨1, "a", "b", false⟩, ⟨2, "c", "", true⟩] =
      { status := 200, header := [],
        body := some (.array ([(⟨1, "a", "b", false⟩ : Row), ⟨2, "c", "", true⟩].map scanTodo)) } ∧
    ((NewTodoService memDB).GetAll (mkContext "" (.error (.text "EOF"))) []).body
      = some (.array []) :=
  ⟨(list_returns_all_rows (NewTodoService memDB) (mkContext "" (.error (.text "EOF")))
      [⟨1, "a", "b", false⟩, ⟨2, "c", "", true⟩] [⟨1, "a", "b", false⟩, ⟨2, "c", "", true⟩]
      (by rfl)).1,
   (list_returns_all_rows (NewTodoService memDB) (mkContext "" (.error (.text "EOF")))
      [] [] (by rfl)).2.1 rfl⟩

/-- The `cols` slice behind the statement of `Update`: for a body that binds
and an id that parses, the text passed to `Exec` is `UPDATE todos SET `, the
entries of the slice joined by commas, and ` WHERE id = ?`, with the parsed id
as the only bound argument.  The slice holds an entry `title = '<title>'`
exactly when the title is non-empty, then an entry
`description = '<description>'` exactly when the description is non-empty,
then always `status = <true|false>`.  Each entry embeds the raw value, so this
describes the slice and not the assignments an SQL engine reads in the text. -/
theorem update_statement_shape (c : Context) (todo : Todo) (id : Int)
    (hb : c.ShouldBindJSON = .ok todo) (hid : Atoi (c.Param "id") = .ok id) :
    ∃ assigns : List String,
      assigns =
        (if todo.Title ≠ "" then ["title = '" ++ todo.Title ++ "'"] else []) ++
        (if todo.Description ≠ "" then ["description = '" ++ todo.Description ++ "'"] else []) ++
        ["status = " ++ (if todo.Status then "true" else "false")] ∧
      assigns ≠ [] ∧
      (∀ log : List (String × List Arg), ((NewTodoService logDB).Update c log).2 =
        log ++ [("UPDATE todos SET " ++ String.intercalate "," assigns ++ " WHERE id = ?",
          [Arg.int id])]) ∧
      (∀ (σ : Type) (s : TodoService σ) (st : σ), s.Update c st =
        (match (s.db.Exec st
            ("UPDATE todos SET " ++ String.intercalate "," assigns ++ " WHERE id = ?")
            [Arg.int id]).2 with
          | .error err => errorResponse 500 err
          | .ok _ =>
            { status := 204, header := [("Location", "/todos/" ++ formatInt id)], body := none },
         (s.db.Exec st
            ("UPDATE todos SET " ++ String.intercalate "," assigns ++ " WHERE id = ?")
            [Arg.int id]).1)) := by
  have hcols : Update.cols { todo with ID := id } =
      (if todo.Title ≠ "" then ["title = '" ++ todo.Title ++ "'"] else []) ++
      (if todo.Description ≠ "" then ["description = '" ++ todo.Description ++ "'"] else []) ++
      ["status = " ++ (if todo.Status then "true" else "false")] := by
    by_cases h1 : todo.Title = "" <;> by_cases h2 : todo.Description = "" <;>
      simp [Update.cols, FormatBool, h1, h2]
  refine ⟨_, rfl, by simp, ?_, ?_⟩
  · intro log
    simp [TodoService.Update, NewTodoService, logDB, hb, hid, Update.statement, hcols]
  · intro σ s st
    rw [← hcols]
    simp only [TodoService.Update, hb, hid, Update.statement]
    rcases hx : s.db.Exec st
      ("UPDATE todos SET " ++ String.intercalate "," (Update.cols { todo with ID := id }) ++
        " WHERE id = ?") [Arg.int id] with ⟨st', r⟩
    cases r <;> simp [Response.JSON, Response.Header, Response.Status, Response.new, errorResponse]

theorem update_statement_shape_witness :
    ((NewTodoService logDB).Update (mkContext "7" (.ok ⟨0, "Buy oat milk", "", true⟩)) []).2 =
      [("UPDATE todos SET title = 'Buy oat milk',status = true WHERE id = ?", [Arg.int 7])] := by
  obtain ⟨assigns, ha, _, hlog, _⟩ :=
    update_statement_shape (mkContext "7" (.ok ⟨0, "Buy oat milk", "", true⟩))
      ⟨0, "Buy oat milk", "", true⟩ 7 rfl (by rfl)
  rw [hlog []]
  subst ha
  rfl

/-- C10 (evaluation): for id 1 and the body whose title is
`x',description = 'y` and whose description is empty, the statement `Update`
passes to `Exec` is
`UPDATE todos SET title = 'x',description = 'y',status = false WHERE id = ?`.
It is the very text built for the body with title `x` and description `y`,
and it reads as three assignments, one of them to `description`, although the
body's description is empty; the bound argument is the id alone. -/
theorem update_statement_has_injected_assignment :
    ((NewTodoService logDB).Update (mkContext "1" (.ok ⟨0, "x',description = 'y", "", false⟩))
        []).2 =
      [("UPDATE todos SET title = 'x',description = 'y',status = false WHERE id = ?",
        [Arg.int 1])] ∧
    ((NewTodoService logDB).Update (mkContext "1" (.ok ⟨0, "x", "y", false⟩)) []).2 =
      [("UPDATE todos SET title = 'x',description = 'y',status = false WHERE id = ?",
        [Arg.int 1])] ∧
    Update.statement ⟨1, "x',description = 'y", "", false⟩ =
      Update.statement ⟨1, "x", "y", false⟩ ∧
    parseSQL (Update.statement ⟨1, "x',description = 'y", "", false⟩) =
      some (.update [⟨"title", .text "x"⟩, ⟨"description", .text "y"⟩,
        ⟨"status", .boolean false⟩]) := by
  refine ⟨by rfl, by rfl, by decide, by rfl⟩

/-- C2 (evaluation): two update bodies that agree on status and on which of
title and description are non-empty, sent for the same id, reach storage as
different statement texts, each carrying its title inside the text, while the
bound arguments hold the id alone. -/
theorem update_text_depends_on_title :
    ((NewTodoService logDB).Update (mkContext "1" (.ok ⟨0, "a", "", false⟩)) []).2 =
        [("UPDATE todos SET title = 'a',status = false WHERE id = ?", [Arg.int 1])] ∧
      ((NewTodoService logDB).Update (mkContext "1" (.ok ⟨0, "b", "", false⟩)) []).2 =
        [("UPDATE todos SET title = 'b',status = false WHERE id = ?", [Arg.int 1])] ∧
      Update.statement ⟨1, "a", "", false⟩ ≠ Update.statement ⟨1, "b", "", false⟩ := by
  refine ⟨by rfl, by rfl, by decide⟩

/-- C3 (evaluation): on the table holding `{1, "Buy milk", "2%", true}`, the
update of id 1 with the title-only body whose title is
`x', description = 'y` succeeds with 204, stores the title `x` instead of
the supplied string, and overwrites the description with `y`; the title-only
body `Buy oat milk` on the same table changes the title and the status and
keeps the description. -/
theorem update_title_only_rewrites_description :
    (NewTodoService memDB).Update (mkContext "1" (.ok ⟨0, "x', description = 'y", "", false⟩))
        [⟨1, "Buy milk", "2%", true⟩] =
      ({ status := 204, header := [("Location", "/todos/1")], body := none },
        [⟨1, "x", "y", false⟩]) ∧
    (NewTodoService memDB).Update (mkContext "1" (.ok ⟨0, "Buy oat milk", "", false⟩))
        [⟨1, "Buy milk", "2%", true⟩] =
      ({ status := 204, header := [("Location", "/todos/1")], body := none },
        [⟨1, "Buy oat milk", "2%", false⟩]) := by
  constructor <;> rfl

theorem filter_filter_ne (t : Table) (id : Int) :
    (t.filter (fun r => r.id != id)).filter (fun r => r.id != id) =
      t.filter (fun r => r.id != id) := by
  simp [List.filter_filter]

theorem memDB_delete (c : Context) (t : Table) (id : Int) (hid : Atoi (c.Param "id") = .ok id) :
    (NewTodoService memDB).Delete c t =
      ({ status := 204, header := [], body := none }, t.filter (fun r => r.id != id)) := by
  have hp : parseSQL "DELETE FROM todos WHERE id = ?" = some .deleteByID := by rfl
  simp [TodoService.Delete, NewTodoService, memDB, memExec, hid, hp, Response.Status,
    Response.new]

/-- C7: for an id that parses, if the storage delete reports no error then
`Delete` answers 204 with no body (and no header), whether or not a row has
that id; on the in-memory table, deleting the same id twice answers 204 both
times, the first call removes exactly the rows with that id, and the second
call leaves the table as the first left it. -/
theorem delete_is_idempotent {σ : Type} (s : TodoService σ) (c : Context) (st st' : σ)
    (id : Int) (res : Result)
    (hid : Atoi (c.Param "id") = .ok id)
    (he : s.db.Exec st "DELETE FROM todos WHERE id = ?" [.int id] = (st', .ok res)) :
    s.Delete c st = ({ status := 204, header := [], body := none }, st') ∧
      (∀ t : Table,
        ((NewTodoService memDB).Delete c t).1 = { status := 204, header := [], body := none } ∧
        ((NewTodoService memDB).Delete c t).2 = t.filter (fun r => r.id != id) ∧
        ((NewTodoService memDB).Delete c ((NewTodoService memDB).Delete c t).2).1 =
          { status := 204, header := [], body := none } ∧
        ((NewTodoService memDB).Delete c ((NewTodoService memDB).Delete c t).2).2 =
          ((NewTodoService memDB).Delete c t).2) := by
  constructor
  · simp [TodoService.Delete, hid, he, Response.Status, Response.new]
  · intro t
    simp [memDB_delete c _ id hid, filter_filter_ne]

theorem delete_is_idempotent_witness :
    (NewTodoService memDB).Delete (mkContext "1" (.error (.text "EOF")))
        [⟨1, "a", "b", false⟩, ⟨2, "c", "", true⟩] =
      ({ status := 204, header := [], body := none }, [⟨2, "c", "", true⟩]) ∧
    (NewTodoService memDB).Delete (mkContext "1" (.error (.text "EOF"))) [⟨2, "c", "", true⟩] =
      ({ status := 204, header := [], body := none }, [⟨2, "c", "", true⟩]) :=
  ⟨(delete_is_idempotent (NewTodoService memDB) (mkContext "1" (.error (.text "EOF")))
      [⟨1, "a", "b", false⟩, ⟨2, "c", "", true⟩] [⟨2, "c", "", true⟩] 1 ⟨.ok 0⟩
      (by rfl) (by rfl)).1,
   (delete_is_idempotent (NewTodoService memDB) (mkContext "1" (.error (.text "EOF")))
      [⟨2, "c", "", true⟩] [⟨2, "c", "", true⟩] 1 ⟨.ok 0⟩ (by rfl) (by rfl)).1⟩

/-! ### Decimal round trip: `Atoi (Sprintf "%d" n) = n` -/

theorem decVal_nil (n : Nat) : decVal n [] = n := rfl

theorem decVal_cons (n : Nat) (c : Char) (cs : List Char) :
    decVal n (c :: cs) = decVal (n * 10 + digitVal c) cs := rfl

theorem decVal_append (n : Nat) (xs ys : List Char) :
    decVal n (xs ++ ys) = decVal (decVal n xs) ys := by
  induction xs generalizing n with
  | nil => rfl
  | cons x xs ih => rw [List.cons_append, decVal_cons, decVal_cons, ih]

theorem le_decVal (n : Nat) (cs : List Char) : n ≤ decVal n cs := by
  induction cs generalizing n with
  | nil => exact Nat.le_refl _
  | cons c cs ih =>
    have := ih (n * 10 + digitVal c)
    rw [decVal_cons]
    omega

theorem digitChar_spec (d : Nat) (h : d < 10) :
    isDigit (digitChar d) = true ∧ digitVal (digitChar d) = d := by
  interval_cases d <;> exact ⟨by decide, by decide⟩

theorem isDigit_ne_sign (c : Char) (h : isDigit c = true) : c ≠ '-' ∧ c ≠ '+' := by
  constructor <;> (rintro rfl; exact absurd h (by decide))

theorem fmtDigits_zero (u : Nat) (buf : List Char) :
    fmtDigits 0 u buf = digitChar (u % 10) :: buf := rfl

theorem fmtDigits_succ (fuel u : Nat) (buf : List Char) :
    fmtDigits (fuel + 1) u buf =
      if u ≥ 10 then fmtDigits fuel (u / 10) (digitChar (u % 10) :: buf)
      else digitChar u :: buf := rfl

/-- The formatted digits: a non-empty run of decimal digits put in front of
the buffer, denoting `u`. -/
theorem fmtDigits_spec (fuel u : Nat) (buf : List Char) (h : u ≤ fuel) :
    ∃ ds : List Char, fmtDigits fuel u buf = ds ++ buf ∧ ds ≠ [] ∧
      (∀ c ∈ ds, isDigit c = true) ∧ ∀ a, decVal a ds = a * 10 ^ ds.length + u := by
  induction fuel generalizing u buf with
  | zero =>
    have hu : u = 0 := by omega
    subst hu
    have hd := digitChar_spec 0 (by omega)
    refine ⟨[digitChar 0], by rw [fmtDigits_zero]; rfl, by simp, ?_, ?_⟩
    · intro c hc
      simp only [List.mem_singleton] at hc
      subst hc
      exact hd.1
    · intro a
      rw [decVal_cons, hd.2]
      simp [decVal_nil]
  | succ fuel ih =>
    by_cases hu : u ≥ 10
    · obtain ⟨ds, hds, _, hdig, hval⟩ := ih (u / 10) (digitChar (u % 10) :: buf) (by omega)
      have hd := digitChar_spec (u % 10) (by omega)
      refine ⟨ds ++ [digitChar (u % 10)], ?_, by simp, ?_, ?_⟩
      · rw [fmtDigits_succ, if_pos hu, hds]
        simp
      · intro c hc
        rcases List.mem_append.1 hc with hc | hc
        · exact hdig c hc
        · simp only [List.mem_singleton] at hc
          subst hc
          exact hd.1
      · intro a
        rw [decVal_append, hval a, decVal_cons, hd.2]
        simp only [decVal_nil, List.length_append, List.length_singleton, pow_succ]
        have := Nat.div_add_mod u 10
        nlinarith [Nat.div_add_mod u 10]
    · have hd := digitChar_spec u (by omega)
      refine ⟨[digitChar u], ?_, by simp, ?_, ?_⟩
      · rw [fmtDigits_succ, if_neg hu]
        rfl
      · intro c hc
        simp only [List.mem_singleton] at hc
        subst hc
        exact hd.1
      · intro a
        rw [decVal_cons, hd.2]
        simp [decVal_nil]

theorem atoiFastLoop_cons (n : Nat) (c : Char) (cs : List Char) :
    atoiFastLoop n (c :: cs) =
      if isDigit c then atoiFastLoop (n * 10 + digitVal c) cs else .error .invalid := rfl

theorem atoiFastLoop_digits (n : Nat) (ds : List Char) (h : ∀ c ∈ ds, isDigit c = true) :
    atoiFastLoop n ds = .ok (decVal n ds) := by
  induction ds generalizing n with
  | nil => rfl
  | cons c cs ih =>
    have hc := h c (List.mem_cons_self _ _)
    rw [atoiFastLoop_cons, if_pos hc, decVal_cons]
    exact ih _ (fun x hx => h x (List.mem_cons_of_mem _ hx))

theorem parseUintLoop_cons (n : Nat) (c : Char) (cs : List Char) :
    parseUintLoop n (c :: cs) =
      if isDigit c then
        if n ≥ maxUint64 / 10 + 1 then .error .range
        else if n * 10 + digitVal c > maxUint64 then .error .range
        else parseUintLoop (n * 10 + digitVal c) cs
      else .error .invalid := rfl

theorem parseUintLoop_digits (n : Nat) (ds : List Char) (h : ∀ c ∈ ds, isDigit c = true)
    (hmax : decVal n ds ≤ maxUint64) : parseUintLoop n ds = .ok (decVal n ds) := by
  induction ds generalizing n with
  | nil => rfl
  | cons c cs ih =>
    have hc := h c (List.mem_cons_self _ _)
    rw [decVal_cons] at hmax
    have hle := le_decVal (n * 10 + digitVal c) cs
    have h2 : ¬ n * 10 + digitVal c > maxUint64 := by omega
    have h1 : ¬ n ≥ maxUint64 / 10 + 1 := by
      unfold maxUint64 at h2 ⊢
      omega
    rw [parseUintLoop_cons, if_pos hc, if_neg h1, if_neg h2, decVal_cons]
    exact ih _ (fun x hx => h x (List.mem_cons_of_mem _ hx)) hmax

theorem formatInt_data (n : Int) :
    ∃ ds : List Char, (formatInt n).data = (if n < 0 then '-' :: ds else ds) ∧ ds ≠ [] ∧
      (∀ c ∈ ds, isDigit c = true) ∧ decVal 0 ds = n.natAbs := by
  obtain ⟨ds, hds, hne, hdig, hval⟩ := fmtDigits_spec n.natAbs n.natAbs [] (Nat.le_refl _)
  refine ⟨ds, ?_, hne, hdig, by simpa using hval 0⟩
  simp only [formatInt, hds, List.append_nil]

theorem atoiFast_neg (ds : List Char) (hne : ds ≠ []) (hdig : ∀ c ∈ ds, isDigit c = true) :
    atoiFast ('-' :: ds) = .ok (-(decVal 0 ds : Int)) := by
  have hlen : ¬ ds.length < 1 := by
    cases ds with
    | nil => exact absurd rfl hne
    | cons c cs => simp
  simp [atoiFast, atoiFastLoop_digits 0 ds hdig, hlen]

theorem atoiFast_pos (ds : List Char) (hne : ds ≠ []) (hdig : ∀ c ∈ ds, isDigit c = true) :
    atoiFast ds = .ok (decVal 0 ds : Int) := by
  cases ds with
  | nil => exact absurd rfl hne
  | cons c cs =>
    have hc := isDigit_ne_sign c (hdig c (List.mem_cons_self _ _))
    simp [atoiFast, atoiFastLoop_digits 0 (c :: cs) hdig, hc.1, hc.2]

theorem ParseUint_digits (ds : List Char) (hne : ds ≠ []) (hdig : ∀ c ∈ ds, isDigit c = true)
    (hmax : decVal 0 ds ≤ maxUint64) : ParseUint ds = .ok (decVal 0 ds) := by
  cases ds with
  | nil => exact absurd rfl hne
  | cons c cs =>
    simp only [ParseUint]
    rw [parseUintLoop_digits 0 (c :: cs) hdig hmax]

theorem ParseInt_neg (ds : List Char) (hne : ds ≠ []) (hdig : ∀ c ∈ ds, isDigit c = true)
    (hmax : decVal 0 ds ≤ 2 ^ 63) : ParseInt ('-' :: ds) = .ok (-(decVal 0 ds : Int)) := by
  have hpu := ParseUint_digits ds hne hdig (by unfold maxUint64; omega)
  have h1 : ¬ (2 ^ 63 < decVal 0 ds) := by omega
  simp [ParseInt, intSize, hpu]
  omega

theorem ParseInt_pos (ds : List Char) (hne : ds ≠ []) (hdig : ∀ c ∈ ds, isDigit c = true)
    (hmax : decVal 0 ds < 2 ^ 63) : ParseInt ds = .ok (decVal 0 ds : Int) := by
  have hpu := ParseUint_digits ds hne hdig (by unfold maxUint64; omega)
  have h1 : ¬ (2 ^ 63 ≤ decVal 0 ds) := by omega
  cases ds with
  | nil => exact absurd rfl hne
  | cons c cs =>
    have hc := isDigit_ne_sign c (hdig c (List.mem_cons_self _ _))
    simp [ParseInt, intSize, hpu, hc.1, hc.2]
    omega

/-- Parsing the decimal text of an `int` gives the `int` back. -/
theorem Atoi_formatInt (n : Int) (h : minInt64 ≤ n ∧ n ≤ maxInt64) :
    Atoi (formatInt n) = .ok n := by
  obtain ⟨ds, hds, hne, hdig, hval⟩ := formatInt_data n
  have hb := h
  unfold minInt64 maxInt64 at hb
  unfold Atoi
  rw [hds]
  by_cases hn : n < 0
  · have hm : -((n.natAbs : Nat) : Int) = n := by
      rw [Int.ofNat_natAbs_of_nonpos (le_of_lt hn), neg_neg]
    have hmax : decVal 0 ds ≤ 2 ^ 63 := by
      rw [hval]
      omega
    rw [if_pos hn, atoiFast_neg ds hne hdig, ParseInt_neg ds hne hdig hmax, hval, hm]
    simp [Except.map, toInt_of_int64 n h]
  · have hm : ((n.natAbs : Nat) : Int) = n := Int.natAbs_of_nonneg (not_lt.1 hn)
    have hmax : decVal 0 ds < 2 ^ 63 := by
      rw [hval]
      omega
    rw [if_neg hn, atoiFast_pos ds hne hdig, ParseInt_pos ds hne hdig hmax, hval, hm]
    simp [Except.map, toInt_of_int64 n h]

/-- Two integers with the same decimal text are equal. -/
theorem formatInt_injective (n m : Int) (h : formatInt n = formatInt m) : n = m := by
  obtain ⟨ds, hds, hne, hdig, hval⟩ := formatInt_data n
  obtain ⟨es, hes, hne', hdig', hval'⟩ := formatInt_data m
  rw [h, hes] at hds
  have hsign : ∀ (xs : List Char), xs ≠ [] → (∀ c ∈ xs, isDigit c = true) →
      ∀ ys : List Char, xs ≠ '-' :: ys := by
    intro xs hx hd ys hxy
    subst hxy
    exact (isDigit_ne_sign '-' (hd '-' (List.mem_cons_self _ _))).1 rfl
  by_cases hn : n < 0 <;> by_cases hm : m < 0
  · rw [if_pos hn, if_pos hm] at hds
    have hd : es = ds := by simpa using hds
    subst hd
    omega
  · rw [if_pos hn, if_neg hm] at hds
    exact absurd hds (hsign es hne' hdig' ds)
  · rw [if_neg hn, if_pos hm] at hds
    exact absurd hds.symm (hsign ds hne hdig es)
  · rw [if_neg hn, if_neg hm] at hds
    subst hds
    omega

/-! ### Create, then get by id, on the in-memory table -/

theorem le_maxID (t : Table) (r : Row) (hr : r ∈ t) : ∃ m, maxID t = some m ∧ r.id ≤ m := by
  induction t with
  | nil => simp at hr
  | cons x xs ih =>
    cases hm : maxID xs with
    | none =>
      have hx : r = x := by
        rcases List.mem_cons.1 hr with h | h
        · exact h
        · obtain ⟨m, hm', _⟩ := ih h
          rw [hm] at hm'
          cases hm'
      refine ⟨x.id, by simp [maxID, hm], by rw [hx]⟩
    | some m =>
      refine ⟨max x.id m, by simp [maxID, hm], ?_⟩
      rcases List.mem_cons.1 hr with h | h
      · rw [h]
        exact le_max_left _ _
      · obtain ⟨m', hm', hle⟩ := ih h
        rw [hm] at hm'
        cases hm'
        exact le_trans hle (le_max_right _ _)

theorem lt_nextID (t : Table) (r : Row) (hr : r ∈ t) : r.id < nextID t := by
  obtain ⟨m, hm, hle⟩ := le_maxID t r hr
  simp only [nextID, hm]
  omega

theorem append_left_cancel (p a b : String) (h : p ++ a = p ++ b) : a = b := by
  have hd := congrArg String.data h
  simp only [String.data_append, List.append_cancel_left_eq] at hd
  exact String.ext hd

theorem memDB_create (c : Context) (t : Table) (todo : Todo) (hb : c.ShouldBindJSON = .ok todo) :
    (NewTodoService memDB).Create c t =
      if minInt64 ≤ nextID t ∧ nextID t ≤ maxInt64 then
        ({ status := 201, header := [("Location", "/todos/" ++ formatInt (nextID t))],
           body := none },
          t ++ [{ id := nextID t, title := todo.Title, description := todo.Description,
                  status := todo.Status }])
      else (errorResponse 500 (.text "database or disk is full"), t) := by
  have hp : parseSQL "INSERT INTO todos (title, description, status) VALUES (?, ?, ?)"
      = some .insert := by rfl
  by_cases hr : minInt64 ≤ nextID t ∧ nextID t ≤ maxInt64
  · simp [TodoService.Create, NewTodoService, memDB, memExec, hb, hp, hr, toInt_of_int64 _ hr,
      Response.Header, Response.Status, Response.new]
  · simp [TodoService.Create, NewTodoService, memDB, memExec, hb, hp, hr, Response.JSON,
      Response.new, errorResponse]

theorem memDB_get_last (c : Context) (t : Table) (r : Row) (hp : Atoi (c.Param "id") = .ok r.id)
    (hfresh : ∀ x ∈ t, x.id ≠ r.id) :
    (NewTodoService memDB).GetByID c (t ++ [r]) =
      { status := 200, header := [], body := some (.record (scanTodo r)) } := by
  have hq : parseSQL "SELECT * FROM todos WHERE id = ?" = some .selectByID := by rfl
  have hf : (t ++ [r]).find? (fun x => x.id == r.id) = some r := by
    have hnone : t.find? (fun x => x.id == r.id) = none := by
      simpa [List.find?_eq_none] using hfresh
    simp [List.find?_append, hnone]
  simp [TodoService.GetByID, NewTodoService, memDB, memQueryRow, hp, hq, hf, Response.JSON,
    Response.new]

/-- C4: on the in-memory table, for every body that binds to title `t`,
description `d` and status `s` (whatever id it carries), if `Create` answers
201 and its `Location` header is `/todos/<n in decimal>`, then `GetByID` with
that decimal text as path parameter, run on the storage `Create` left, answers
200 with the record `{id: n, title: t, description: d, status: s}`. -/
theorem create_then_get_by_id (t : Table) (c c' : Context) (todo : Todo) (n : Int)
    (hb : c.ShouldBindJSON = .ok todo)
    (hs : ((NewTodoService memDB).Create c t).1.status = 201)
    (hl : ("Location", "/todos/" ++ formatInt n) ∈ ((NewTodoService memDB).Create c t).1.header)
    (hp : c'.Param "id" = formatInt n) :
    (NewTodoService memDB).GetByID c' ((NewTodoService memDB).Create c t).2 =
      { status := 200, header := [],
        body := some (.record { ID := n, Title := todo.Title, Description := todo.Description,
                                Status := todo.Status }) } := by
  rw [memDB_create c t todo hb] at hs hl ⊢
  by_cases hr : minInt64 ≤ nextID t ∧ nextID t ≤ maxInt64
  · rw [if_pos hr] at hl ⊢
    simp only [List.mem_singleton, Prod.mk.injEq, true_and] at hl
    have hn : n = nextID t := formatInt_injective _ _ (append_left_cancel _ _ _ hl)
    subst hn
    have hparse : Atoi (c'.Param "id") = .ok (nextID t) := by
      rw [hp]
      exact Atoi_formatInt _ hr
    exact memDB_get_last c' t
      { id := nextID t, title := todo.Title, description := todo.Description,
        status := todo.Status } hparse (fun x hx => ne_of_lt (lt_nextID t x hx))
  · rw [if_neg hr] at hs
    simp [errorResponse] at hs

theorem create_then_get_by_id_witness :
    (NewTodoService memDB).GetByID (mkContext (formatInt 3) (.error (.text "EOF")))
        ((NewTodoService memDB).Create (mkContext "" (.ok ⟨42, "Buy milk", "2%", false⟩))
          [⟨1, "a", "b", true⟩, ⟨2, "c", "", false⟩]).2 =
      { status := 200, header := [],
        body := some (.record { ID := 3, Title := "Buy milk", Description := "2%",
                                Status := false }) } :=
  create_then_get_by_id [⟨1, "a", "b", true⟩, ⟨2, "c", "", false⟩]
    (mkContext "" (.ok ⟨42, "Buy milk", "2%", false⟩))
    (mkContext (formatInt 3) (.error (.text "EOF"))) ⟨42, "Buy milk", "2%", false⟩ 3
    rfl (by rfl) (by decide) (by rfl)

/-! ### Title-only update with a quote-free title -/

theorem lexFrom_cons (m : LexMode) (c : Char) (cs : List Char) :
    lexFrom m (c :: cs) = (lexFrom (lexStep m c).1 cs).map (fun ts => (lexStep m c).2 ++ ts) := by
  cases m <;> simp only [lexFrom] <;> cases lexFrom _ cs <;> rfl

theorem lexFrom_append (m : LexMode) (xs ys : List Char) :
    lexFrom m (xs ++ ys) =
      (lexFrom (lexRun m xs).1 ys).map (fun ts => (lexRun m xs).2 ++ ts) := by
  induction xs generalizing m with
  | nil => cases h : lexFrom m ys <;> simp [lexRun, h]
  | cons x xs ih =>
    rw [List.cons_append, lexFrom_cons, ih]
    cases h : lexFrom (lexRun (lexStep m x).1 xs).1 ys <;> simp [lexRun, h]

theorem lexRun_inStr (acc cs : List Char) (h : quoteChar ∉ cs) :
    lexRun (.inStr acc) cs = (.inStr (acc ++ cs), []) := by
  induction cs generalizing acc with
  | nil => simp [lexRun]
  | cons c cs ih =>
    have hc : c ≠ quoteChar := fun e => h (e ▸ List.mem_cons_self _ _)
    have hcs : quoteChar ∉ cs := fun e => h (List.mem_cons_of_mem _ e)
    simp [lexRun, lexStep, hc, ih _ hcs]

theorem lexStep_close (acc : List Char) :
    lexStep (.inStr acc) quoteChar = (.afterQuote acc, []) := by
  simp [lexStep]

theorem lexStep_comma (acc : List Char) :
    lexStep (.afterQuote acc) ',' = (.idle, [.lit (String.mk acc), .sym ',']) := by
  have h1 : lexStart ',' = (.idle, [.sym ',']) := by rfl
  have h2 : ((',' : Char) == quoteChar) = false := by rfl
  simp only [lexStep, h1, h2]
  rfl

theorem lexFrom_close_comma (acc rest : List Char) :
    lexFrom (.inStr acc) (quoteChar :: ',' :: rest) =
      (lexFrom .idle rest).map (fun ts => .lit (String.mk acc) :: .sym ',' :: ts) := by
  rw [lexFrom_cons, lexStep_close, lexFrom_cons, lexStep_comma]
  cases lexFrom .idle rest <;> rfl

theorem intercalate_two (a b : String) : String.intercalate "," [a, b] = a ++ "," ++ b := by
  simp [String.intercalate, String.intercalate.go]

theorem statement_title_only (id : Int) (title : String) (status : Bool) (hne : title ≠ "") :
    (Update.statement ⟨id, title, "", status⟩).data =
      "UPDATE todos SET title = '".data ++ (title.data ++
        (quoteChar :: ',' :: ("status = " ++ FormatBool status ++ " WHERE id = ?").data)) := by
  simp only [Update.statement, Update.cols]
  simp [hne, intercalate_two, String.data_append, quoteChar]

theorem lexSQL_title_only (id : Int) (title : String) (status : Bool) (hne : title ≠ "")
    (hq : quoteChar ∉ title.data) :
    lexSQL (Update.statement ⟨id, title, "", status⟩) =
      some ([.word "UPDATE", .word "todos", .word "SET", .word "title", .sym '=', .lit title,
        .sym ',', .word "status", .sym '=', .word (FormatBool status)] ++ whereIdTokens) := by
  have hA : lexRun .idle "UPDATE todos SET title = '".data =
      (.inStr [], [.word "UPDATE", .word "todos", .word "SET", .word "title", .sym '=']) := by
    rfl
  unfold lexSQL
  rw [statement_title_only id title status hne, lexFrom_append, hA, lexFrom_append,
    lexRun_inStr [] title.data hq, lexFrom_close_comma]
  cases status
  · have hB : lexFrom .idle ("status = " ++ FormatBool false ++ " WHERE id = ?").data =
        some ([.word "status", .sym '=', .word "false"] ++ whereIdTokens) := by rfl
    rw [hB]
    rfl
  · have hB : lexFrom .idle ("status = " ++ FormatBool true ++ " WHERE id = ?").data =
        some ([.word "status", .sym '=', .word "true"] ++ whereIdTokens) := by rfl
    rw [hB]
    rfl

theorem parseSQL_title_only (id : Int) (title : String) (status : Bool) (hne : title ≠ "")
    (hq : quoteChar ∉ title.data) :
    parseSQL (Update.statement ⟨id, title, "", status⟩) =
      some (.update [⟨"title", .text title⟩, ⟨"status", .boolean status⟩]) := by
  unfold parseSQL
  rw [lexSQL_title_only id title status hne hq]
  cases status <;>
    simp [parseStmt, parseAssigns, tokenValue, whereIdTokens, FormatBool]

/-- On the in-memory table, a title-only update whose title holds no single
quote sets the title to the supplied string and the status to the body's
boolean on the rows with that id, and leaves every description as it was. -/
theorem update_title_only_without_quote (t : Table) (c : Context) (id bodyID : Int)
    (title : String) (status : Bool)
    (hb : c.ShouldBindJSON = .ok ⟨bodyID, title, "", status⟩)
    (hid : Atoi (c.Param "id") = .ok id) (hne : title ≠ "") (hq : quoteChar ∉ title.data) :
    (NewTodoService memDB).Update c t =
      ({ status := 204, header := [("Location", "/todos/" ++ formatInt id)], body := none },
        t.map (fun r => if r.id = id then { r with title := title, status := status } else r)) := by
  have hp := parseSQL_title_only id title status hne hq
  have hv : validAssigns [⟨"title", .text title⟩, ⟨"status", .boolean status⟩] = true := by
    simp [validAssigns, applyAssigns, applyAssign]
  simp [TodoService.Update, NewTodoService, memDB, memExec, hb, hid, hp, updateRows, hv,
    applyAssigns, applyAssign, Response.Header, Response.Status, Response.new]

end TodoApp
